import Mathlib

/-!
Shallow embedding of the changeset event reconciliation engine of this
repository (the `campaigns` package: `ChangesetEvents.UpdateLabelsSince`,
called `deriveLabels` in the design document, and
`ChangesetEvents.FindMergeCommitID`), together with proofs of the claimed
properties.  Timestamps are modelled as natural numbers; the Go zero time
is `0`.  Labels are modelled by their names (strings), matching the
comparisons the engine performs.
-/

/-- The closed enumeration of changeset event kinds that appear in the
engine and its tests (`cmpgn.ChangesetEventKind*`). -/
inductive ChangesetEventKind where
  | githubLabeled
  | githubUnlabeled
  | githubCommented
  | githubMerged
  | bitbucketServerApproved
  | bitbucketServerCommented
  | bitbucketServerMerged
deriving DecidableEq, Repr

/-- The polymorphic per-host metadata payload of an event: a tagged union
over the payload shapes the engine inspects.  `labelPayload` models
`github.LabelEvent` (carrying the label name); `commitActivity` models
`bitbucketserver.Activity` (nesting an optional commit identifier);
`mergePayload` models `github.MergedEvent` (exposing the commit OID
directly); `reviewComment` models `github.PullRequestReviewComment`;
`otherPayload` stands for every payload shape the engine ignores. -/
inductive EventMetadata where
  | labelPayload (name : String)
  | commitActivity (commitID : Option String)
  | mergePayload (commitOID : String)
  | reviewComment
  | otherPayload
deriving DecidableEq, Repr

/-- A changeset event (`cmpgn.ChangesetEvent`): kind, stable key,
host-reported timestamps and the tagged metadata payload. -/
structure ChangesetEvent where
  kind : ChangesetEventKind
  key : String
  createdAt : Nat
  updatedAt : Nat
  metadata : EventMetadata
deriving DecidableEq, Repr

/-- The entity snapshot (`cmpgn.Changeset`): its own timestamp (the
idempotence cutoff) and the label set last observed from the host. -/
structure Changeset where
  updatedAt : Nat
  labels : List String
deriving DecidableEq, Repr

/-- Whether a kind is a labeling action (add or remove). -/
def isLabelingKind : ChangesetEventKind → Bool
  | .githubLabeled => true
  | .githubUnlabeled => true
  | _ => false

/-- Whether a kind denotes a "merged" action for any supported host. -/
def isMergedKind : ChangesetEventKind → Bool
  | .githubMerged => true
  | .bitbucketServerMerged => true
  | _ => false

/-- An event qualifies for the label fold iff its kind is a labeling
action and its `updatedAt` is strictly after the snapshot cutoff. -/
def qualifies (s : Changeset) (e : ChangesetEvent) : Bool :=
  isLabelingKind e.kind && decide (s.updatedAt < e.updatedAt)

/-- Stable insertion into a list sorted by `updatedAt` ascending: the new
event goes before the first strictly later event, so equal timestamps keep
ingestion order. -/
def insertByTime (e : ChangesetEvent) : List ChangesetEvent → List ChangesetEvent
  | [] => [e]
  | x :: xs => if e.updatedAt ≤ x.updatedAt then e :: x :: xs else x :: insertByTime e xs

/-- Stable sort of events by `updatedAt` ascending (the total-order
comparator utility of the engine). -/
def sortByTime : List ChangesetEvent → List ChangesetEvent
  | [] => []
  | e :: es => insertByTime e (sortByTime es)

/-- Insert a label name into the accumulated set if it is absent. -/
def insertLabel (name : String) (acc : List String) : List String :=
  if name ∈ acc then acc else acc ++ [name]

/-- Delete a label name from the accumulated set if it is present. -/
def removeLabel (name : String) (acc : List String) : List String :=
  acc.filter (fun l => decide (l ≠ name))

/-- One fold step: an "add" event inserts the named label if absent, a
"remove" event deletes it if present; every other combination of kind and
payload is ignored. -/
def applyLabelEvent (acc : List String) (e : ChangesetEvent) : List String :=
  match e.kind, e.metadata with
  | .githubLabeled, .labelPayload n => insertLabel n acc
  | .githubUnlabeled, .labelPayload n => removeLabel n acc
  | _, _ => acc

/-- Modelled from the spec: `ChangesetEvents.UpdateLabelsSince` (the
`deriveLabels` operation), whose implementation file is not part of this
source snapshot (only its tests are).  Start from `snapshot.labels`,
filter the events to labeling actions strictly after the snapshot cutoff,
sort them by `updatedAt` ascending with a stable tie-break, and fold them
in order. -/
def deriveLabels (s : Changeset) (events : List ChangesetEvent) : List String :=
  (sortByTime (events.filter (qualifies s))).foldl applyLabelEvent s.labels

/-- Extract the commit identifier from a host-specific metadata payload:
nested under the commit-activity payload for Bitbucket Server, directly on
the merge-event payload for GitHub; the empty identity otherwise. -/
def extractCommitID : EventMetadata → String
  | .commitActivity (some c) => c
  | .mergePayload oid => oid
  | _ => ""

/-- Modelled from the spec: `ChangesetEvents.FindMergeCommitID`, whose
implementation file is not part of this source snapshot (only its tests
are).  Scan the events for the first one whose kind denotes a "merged"
action and return the commit identifier extracted from its metadata; the
empty identity when no merge event exists. -/
def findMergeCommitID : List ChangesetEvent → String
  | [] => ""
  | e :: es => if isMergedKind e.kind then extractCommitID e.metadata else findMergeCommitID es

/-- A labeling event as built by the tests: kind, timestamp and a label
payload carrying the name. -/
def mkLabelEvent (name : String) (kind : ChangesetEventKind) (when : Nat) : ChangesetEvent :=
  ⟨kind, "key", when, when, .labelPayload name⟩

/-- A Bitbucket Server event as built by the tests: its metadata is a
commit activity nesting the given commit identifier. -/
def mkBitbucketEvent (kind : ChangesetEventKind) (commit : String) : ChangesetEvent :=
  ⟨kind, "key", 1, 1, .commitActivity (some commit)⟩

/-- The GitHub merge event as built by the tests: its kind is the
Bitbucket Server "merged" kind while its metadata is a GitHub merge-event
payload exposing the commit OID. -/
def mkGitHubMergeEvent (commit : String) : ChangesetEvent :=
  ⟨.bitbucketServerMerged, "key", 1, 1, .mergePayload commit⟩

/-- A non-merge GitHub event as built by the tests: a comment carrying a
review-comment payload. -/
def mkOtherGitHubEvent : ChangesetEvent :=
  ⟨.githubCommented, "key", 1, 1, .reviewComment⟩

lemma qualifies_iff (s : Changeset) (e : ChangesetEvent) :
    qualifies s e = true ↔ (isLabelingKind e.kind = true ∧ s.updatedAt < e.updatedAt) := by
  simp [qualifies]

lemma qualifies_eq_false_of_le (s : Changeset) (e : ChangesetEvent)
    (h : e.updatedAt ≤ s.updatedAt) : qualifies s e = false := by
  simp [qualifies, Nat.not_lt.mpr h]

lemma mem_insertLabel (x n : String) (acc : List String) :
    x ∈ insertLabel n acc ↔ (x ∈ acc ∨ x = n) := by
  unfold insertLabel
  split
  · constructor
    · exact Or.inl
    · rintro (hx | rfl)
      · exact hx
      · assumption
  · simp

lemma mem_removeLabel (x n : String) (acc : List String) :
    x ∈ removeLabel n acc ↔ (x ∈ acc ∧ x ≠ n) := by
  simp [removeLabel]

/-- Claim C1: `deriveLabels` ignores every event at or before the snapshot
cutoff — removing such an event from the collection leaves the result
unchanged — and every event that survives the filter is a labeling event
strictly after the snapshot timestamp. -/
theorem deriveLabels_cutoff_invariant (s : Changeset)
    (l1 l2 : List ChangesetEvent) (e : ChangesetEvent)
    (h : e.updatedAt ≤ s.updatedAt) :
    deriveLabels s (l1 ++ e :: l2) = deriveLabels s (l1 ++ l2) ∧
    ∀ e' ∈ (l1 ++ e :: l2).filter (qualifies s),
      isLabelingKind e'.kind = true ∧ s.updatedAt < e'.updatedAt := by
  constructor
  · unfold deriveLabels
    rw [List.filter_append, List.filter_append, List.filter_cons,
      qualifies_eq_false_of_le s e h]
    simp
  · intro e' he'
    rw [List.mem_filter] at he'
    exact (qualifies_iff s e').mp he'.2

/-- Witness for C1 at a concrete input: an old labeling event (timestamp 3,
snapshot cutoff 5) is dropped. -/
theorem deriveLabels_cutoff_invariant_witness :
    (mkLabelEvent "label2" ChangesetEventKind.githubLabeled 3).updatedAt ≤ 5 ∧
    deriveLabels ⟨5, ["label1"]⟩ [mkLabelEvent "label2" ChangesetEventKind.githubLabeled 3] =
      deriveLabels ⟨5, ["label1"]⟩ [] :=
  ⟨by decide,
    (deriveLabels_cutoff_invariant ⟨5, ["label1"]⟩ [] []
      (mkLabelEvent "label2" ChangesetEventKind.githubLabeled 3) (by decide)).1⟩

/-- Claim C2: a qualifying "add" event inserts its label name (membership
afterwards is membership before or equality with the name), a "remove"
event deletes its label name (membership afterwards is membership before
and difference from the name); concretely, snapshot labels `{label1}` plus
one `unlabel(label1)` event after the cutoff yields the empty set, and
plus one `label(label2)` event yields `{label1, label2}`. -/
theorem applyLabelEvent_add_remove :
    ∀ (acc : List String) (t : Nat) (n x : String),
      (x ∈ applyLabelEvent acc (mkLabelEvent n ChangesetEventKind.githubLabeled t) ↔
        (x ∈ acc ∨ x = n)) ∧
      (x ∈ applyLabelEvent acc (mkLabelEvent n ChangesetEventKind.githubUnlabeled t) ↔
        (x ∈ acc ∧ x ≠ n)) ∧
      deriveLabels ⟨0, ["label1"]⟩ [mkLabelEvent "label1" ChangesetEventKind.githubUnlabeled 1] = [] ∧
      deriveLabels ⟨0, ["label1"]⟩ [mkLabelEvent "label2" ChangesetEventKind.githubLabeled 1] =
        ["label1", "label2"] := by
  intro acc t n x
  refine ⟨?_, ?_, ?_, ?_⟩
  · simpa [applyLabelEvent, mkLabelEvent] using mem_insertLabel x n acc
  · simpa [applyLabelEvent, mkLabelEvent] using mem_removeLabel x n acc
  · decide
  · decide

/-- Claim C3: scenario D — a Bitbucket Server "approved" event with an
empty commit followed by a Bitbucket Server "merged" event carrying commit
`deadbeef` yields `deadbeef`; the non-merge event is skipped. -/
theorem findMergeCommitID_scenarioD :
    findMergeCommitID
      [mkBitbucketEvent ChangesetEventKind.bitbucketServerApproved "",
       mkBitbucketEvent ChangesetEventKind.bitbucketServerMerged "deadbeef"] = "deadbeef" := by
  decide

/-- Counterexample to claim C4 as stated: "returns the empty identity
exactly when no merged-kind event is present" fails in the right-to-left
direction — a merged-kind event whose commit-activity payload carries the
empty commit identifier makes `findMergeCommitID` return the empty
identity even though a merged-kind event is present. -/
theorem findMergeCommitID_not_exactly_on_absence :
    findMergeCommitID [mkBitbucketEvent ChangesetEventKind.bitbucketServerMerged ""] = "" ∧
    isMergedKind (mkBitbucketEvent ChangesetEventKind.bitbucketServerMerged "").kind = true := by
  decide

/-- Claim C4 (amended): whenever the collection contains no event of a
merged kind — in particular the empty (nil) collection and a non-empty
collection of only non-merge events — `findMergeCommitID` returns the
empty identity as a successful result. -/
theorem findMergeCommitID_absence (es : List ChangesetEvent)
    (h : ∀ e ∈ es, isMergedKind e.kind = false) :
    findMergeCommitID es = "" := by
  induction es with
  | nil => rfl
  | cons e es ih =>
    have he : isMergedKind e.kind = false := h e (List.mem_cons_self e es)
    simp only [findMergeCommitID, he, Bool.false_eq_true, if_false]
    exact ih (fun x hx => h x (List.mem_cons_of_mem e hx))

/-- Witness for C4 (amended) at concrete inputs: the empty collection and
a collection of an approval and two comments return the empty identity. -/
theorem findMergeCommitID_absence_witness :
    findMergeCommitID [] = "" ∧
    findMergeCommitID
      [mkBitbucketEvent ChangesetEventKind.bitbucketServerApproved "",
       mkBitbucketEvent ChangesetEventKind.bitbucketServerCommented "",
       mkOtherGitHubEvent] = "" :=
  ⟨findMergeCommitID_absence [] (by decide),
   findMergeCommitID_absence _ (by decide)⟩

/-- Claim C6: `deriveLabels` is deterministic — two calls on equal inputs
yield identical results. -/
theorem deriveLabels_deterministic (s1 s2 : Changeset)
    (e1 e2 : List ChangesetEvent) (hs : s1 = s2) (he : e1 = e2) :
    deriveLabels s1 e1 = deriveLabels s2 e2 := by
  subst hs; subst he; rfl

/-- Witness for C6 at a concrete input. -/
theorem deriveLabels_deterministic_witness :
    deriveLabels ⟨0, ["label1"]⟩ [mkLabelEvent "label2" ChangesetEventKind.githubLabeled 1] =
      deriveLabels ⟨0, ["label1"]⟩ [mkLabelEvent "label2" ChangesetEventKind.githubLabeled 1] :=
  deriveLabels_deterministic _ _ _ _ rfl rfl

/-- Claim C7: when no event qualifies, `deriveLabels` returns the
snapshot's label set unchanged; the zero-value snapshot with no events
yields the empty set. -/
theorem deriveLabels_no_qualifying (s : Changeset) (events : List ChangesetEvent) :
    ((∀ e ∈ events, qualifies s e = false) → deriveLabels s events = s.labels) ∧
    deriveLabels ⟨0, []⟩ [] = [] := by
  constructor
  · intro h
    have hf : events.filter (qualifies s) = [] :=
      List.filter_eq_nil_iff.mpr (fun e he => by simp [h e he])
    rw [deriveLabels, hf]
    rfl
  · rfl

/-- Witness for C7 at a concrete input: an event at time 3 does not
qualify against a snapshot cutoff of 5, so the snapshot labels survive. -/
theorem deriveLabels_no_qualifying_witness :
    deriveLabels ⟨5, ["label1"]⟩ [mkLabelEvent "label2" ChangesetEventKind.githubLabeled 3] =
      ["label1"] :=
  (deriveLabels_no_qualifying ⟨5, ["label1"]⟩
    [mkLabelEvent "label2" ChangesetEventKind.githubLabeled 3]).1 (by decide)

/-- Claim C8: with several merged-kind events present, `findMergeCommitID`
does not fail — it returns the commit identifier extracted from the first
merged-kind event in iteration order. -/
theorem findMergeCommitID_first_wins (l1 l2 : List ChangesetEvent) (e : ChangesetEvent)
    (h1 : ∀ x ∈ l1, isMergedKind x.kind = false) (he : isMergedKind e.kind = true) :
    findMergeCommitID (l1 ++ e :: l2) = extractCommitID e.metadata := by
  induction l1 with
  | nil => simp [findMergeCommitID, he]
  | cons x xs ih =>
    have hx : isMergedKind x.kind = false := h1 x (List.mem_cons_self x xs)
    simp only [List.cons_append, findMergeCommitID, hx, Bool.false_eq_true, if_false]
    exact ih (fun y hy => h1 y (List.mem_cons_of_mem x hy))

/-- Witness for C8 at a concrete input: two merge events with distinct
commits — the first in iteration order wins. -/
theorem findMergeCommitID_first_wins_witness :
    findMergeCommitID
      [mkOtherGitHubEvent,
       mkBitbucketEvent ChangesetEventKind.bitbucketServerMerged "aaa",
       mkBitbucketEvent ChangesetEventKind.bitbucketServerMerged "bbb"] = "aaa" :=
  findMergeCommitID_first_wins [mkOtherGitHubEvent]
    [mkBitbucketEvent ChangesetEventKind.bitbucketServerMerged "bbb"]
    (mkBitbucketEvent ChangesetEventKind.bitbucketServerMerged "aaa")
    (by decide) (by decide)

/-- Claim C10: extraction dispatches on the metadata payload's concrete
shape, not on agreement between the event kind and the metadata host: an
event with the Bitbucket Server "merged" kind but a GitHub merge-event
payload yields that payload's commit OID, alone or mixed with other
events. -/
theorem findMergeCommitID_by_payload_shape :
    findMergeCommitID [mkGitHubMergeEvent "deadbeef"] = "deadbeef" ∧
    findMergeCommitID [mkOtherGitHubEvent, mkGitHubMergeEvent "deadbeef"] = "deadbeef" ∧
    (mkGitHubMergeEvent "deadbeef").kind = ChangesetEventKind.bitbucketServerMerged ∧
    (mkGitHubMergeEvent "deadbeef").metadata = EventMetadata.mergePayload "deadbeef" := by
  decide

lemma mkLabelEvent_updatedAt (n : String) (k : ChangesetEventKind) (t : Nat) :
    (mkLabelEvent n k t).updatedAt = t := rfl

/-- Claim C5: for two qualifying labeling events on the same label name
with distinct timestamps, `deriveLabels` gives the same result on both
input orders (it sorts by `updatedAt` before folding), and the event with
the later timestamp determines whether the label is in the final set. -/
theorem deriveLabels_order_sensitivity (s : Changeset) (n : String)
    (t1 t2 : Nat) (k1 k2 : ChangesetEventKind)
    (hk1 : isLabelingKind k1 = true) (hk2 : isLabelingKind k2 = true)
    (h1 : s.updatedAt < t1) (h12 : t1 < t2) :
    deriveLabels s [mkLabelEvent n k1 t1, mkLabelEvent n k2 t2] =
      deriveLabels s [mkLabelEvent n k2 t2, mkLabelEvent n k1 t1] ∧
    (n ∈ deriveLabels s [mkLabelEvent n k1 t1, mkLabelEvent n k2 t2] ↔
      k2 = ChangesetEventKind.githubLabeled) := by
  have h2 : s.updatedAt < t2 := Nat.lt_trans h1 h12
  have hq1 : qualifies s (mkLabelEvent n k1 t1) = true := by
    simp [qualifies, mkLabelEvent, hk1, h1]
  have hq2 : qualifies s (mkLabelEvent n k2 t2) = true := by
    simp [qualifies, mkLabelEvent, hk2, h2]
  have hfold : deriveLabels s [mkLabelEvent n k1 t1, mkLabelEvent n k2 t2] =
      applyLabelEvent (applyLabelEvent s.labels (mkLabelEvent n k1 t1)) (mkLabelEvent n k2 t2) := by
    unfold deriveLabels
    simp [List.filter_cons, hq1, hq2, sortByTime, insertByTime,
      mkLabelEvent_updatedAt, Nat.le_of_lt h12]
  have hfold2 : deriveLabels s [mkLabelEvent n k2 t2, mkLabelEvent n k1 t1] =
      applyLabelEvent (applyLabelEvent s.labels (mkLabelEvent n k1 t1)) (mkLabelEvent n k2 t2) := by
    unfold deriveLabels
    simp [List.filter_cons, hq1, hq2, sortByTime, insertByTime,
      mkLabelEvent_updatedAt, Nat.not_le.mpr h12]
  refine ⟨hfold.trans hfold2.symm, ?_⟩
  rw [hfold]
  cases k2 with
  | githubLabeled => simp [applyLabelEvent, mkLabelEvent, mem_insertLabel]
  | githubUnlabeled => simp [applyLabelEvent, mkLabelEvent, mem_removeLabel]
  | githubCommented => simp [isLabelingKind] at hk2
  | githubMerged => simp [isLabelingKind] at hk2
  | bitbucketServerApproved => simp [isLabelingKind] at hk2
  | bitbucketServerCommented => simp [isLabelingKind] at hk2
  | bitbucketServerMerged => simp [isLabelingKind] at hk2

/-- Witness for C5 at a concrete input: an add at time 1 followed by a
remove at time 2, in both orders, on an empty snapshot with cutoff 0. -/
theorem deriveLabels_order_sensitivity_witness :
    (deriveLabels ⟨0, []⟩
        [mkLabelEvent "lbl" ChangesetEventKind.githubLabeled 1,
         mkLabelEvent "lbl" ChangesetEventKind.githubUnlabeled 2] =
      deriveLabels ⟨0, []⟩
        [mkLabelEvent "lbl" ChangesetEventKind.githubUnlabeled 2,
         mkLabelEvent "lbl" ChangesetEventKind.githubLabeled 1]) ∧
    ("lbl" ∈ deriveLabels ⟨0, []⟩
        [mkLabelEvent "lbl" ChangesetEventKind.githubLabeled 1,
         mkLabelEvent "lbl" ChangesetEventKind.githubUnlabeled 2] ↔
      ChangesetEventKind.githubUnlabeled = ChangesetEventKind.githubLabeled) :=
  deriveLabels_order_sensitivity ⟨0, []⟩ "lbl" 1 2
    ChangesetEventKind.githubLabeled ChangesetEventKind.githubUnlabeled
    (by decide) (by decide) (by decide) (by decide)
